import Mathlib

/-!
Shallow embedding of the Arbordex constant-product AMM core
(`src/utils.ts`, `src/validation.ts`, `src/pool.ts`, and the swap /
liquidity request handlers of `src/index.ts`).

Numbers are modelled as real numbers.  Fallible functions (the ones that
`throw` in the source) return `Except String _`; the stateful pool-engine
operations mutate the pool record in place in the source and may throw
*after* mutating, so they are modelled as returning the (possibly
partially updated) state together with an optional error.
-/

noncomputable section

namespace Arbordex

/-- The two pool assets (the ETH / USDC literal types in the source). -/
inductive Token
  | ETH
  | USDC
deriving DecidableEq

/-- Model of `PoolState` from `pool.ts`: reserves, total LP shares, per-asset
accumulated fees, and the running constant-product value `k`. -/
structure PoolState where
  ethReserve : ℝ
  usdcReserve : ℝ
  totalShares : ℝ
  accumulatedFeeEth : ℝ
  accumulatedFeeUsdc : ℝ
  k : ℝ

/-- The seeded pool: 1,000,000 of each asset, 1,000,000 shares, no fees,
`k = 1000000 * 1000000`. -/
def seedPool : PoolState :=
  { ethReserve := 1000000
    usdcReserve := 1000000
    totalShares := 1000000
    accumulatedFeeEth := 0
    accumulatedFeeUsdc := 0
    k := 1000000 * 1000000 }

/-- Reserve of the given side of the pool. -/
def reserveOf (p : PoolState) : Token → ℝ
  | Token.ETH => p.ethReserve
  | Token.USDC => p.usdcReserve

/-- Accumulated-fee counter of the given side of the pool. -/
def feeOf (p : PoolState) : Token → ℝ
  | Token.ETH => p.accumulatedFeeEth
  | Token.USDC => p.accumulatedFeeUsdc

/-! ## AMM Math (`utils.ts`) -/

/-- Model of `calculateOutputAmount` (utils.ts): constant-product swap output.
Throws unless all three arguments are strictly positive. -/
def calculateOutputAmount (inputAmount inputReserve outputReserve : ℝ) :
    Except String ℝ :=
  if inputAmount ≤ 0 ∨ inputReserve ≤ 0 ∨ outputReserve ≤ 0 then
    Except.error "All amounts must be positive"
  else
    Except.ok (inputAmount * outputReserve / (inputReserve + inputAmount))

/-- Model of `calculateFee` (utils.ts): returns `(fee, amountAfterFee)`. -/
def calculateFee (inputAmount feePercentage : ℝ) : ℝ × ℝ :=
  let fee := inputAmount * feePercentage
  let amountAfterFee := inputAmount - fee
  (fee, amountAfterFee)

/-- Model of `calculatePriceImpact` (utils.ts): `max 0 (1 - (out/in)/spot)`. -/
def calculatePriceImpact (outputAmount inputAmount spotPrice : ℝ) : ℝ :=
  let executionPrice := outputAmount / inputAmount
  let priceImpact := 1 - executionPrice / spotPrice
  max 0 priceImpact

/-- Model of `calculateMinimumOutput` (utils.ts): `expected * (1 - slippage)`. -/
def calculateMinimumOutput (expectedOutput slippageTolerance : ℝ) : ℝ :=
  expectedOutput * (1 - slippageTolerance)

/-- Model of `isSlippageAcceptable` (utils.ts): `actual >= minimum`. -/
def isSlippageAcceptable (actualOutput minimumOutput : ℝ) : Bool :=
  decide (actualOutput ≥ minimumOutput)

/-- Model of `calculateLiquidityShares` (utils.ts): genesis deposits get
`max (sqrt (a*b)) 1000` shares, later deposits get
`min (a/Ra) (b/Rb) * totalShares`. -/
def calculateLiquidityShares
    (ethAmount usdcAmount ethReserve usdcReserve totalShares : ℝ) : ℝ :=
  if totalShares = 0 then
    max (Real.sqrt (ethAmount * usdcAmount)) 1000
  else
    let ethFraction := ethAmount / ethReserve
    let usdcFraction := usdcAmount / usdcReserve
    let fractionOfPool := min ethFraction usdcFraction
    fractionOfPool * totalShares

/-- Model of `calculateWithdrawalAmounts` (utils.ts): proportional share of both
reserves, returned as `(ethAmount, usdcAmount)`. -/
def calculateWithdrawalAmounts
    (sharesBurned ethReserve usdcReserve totalShares : ℝ) : ℝ × ℝ :=
  let ownershipFraction := sharesBurned / totalShares
  (ethReserve * ownershipFraction, usdcReserve * ownershipFraction)

/-- Model of `calculateSpotPrice` (utils.ts): `usdcReserve / ethReserve`, throwing
when the ETH reserve is exactly zero. -/
def calculateSpotPrice (usdcReserve ethReserve : ℝ) : Except String ℝ :=
  if ethReserve = 0 then
    Except.error "Cannot calculate price with zero ETH reserve"
  else
    Except.ok (usdcReserve / ethReserve)

/-! ## Validation (`validation.ts`) -/

def MIN_TRADE_AMOUNT : ℝ := 1 / 100
def MAX_TRANSACTION_SIZE : ℝ := 100000
def MIN_POOL_RESERVE : ℝ := 100
def MAX_SLIPPAGE_TOLERANCE : ℝ := 1 / 2
def MIN_SLIPPAGE_TOLERANCE : ℝ := 1 / 10000

/-- Structured validity result (`ValidationError` interface). -/
structure ValidationError where
  valid : Bool
  error : Option String := none

/-- Model of `validateSwapAmount` (validation.ts).  (`!Number.isFinite(amount)` is
vacuous over the reals and drops out of the first guard.) -/
def validateSwapAmount (amount : ℝ) : ValidationError :=
  if amount ≤ 0 then
    { valid := false, error := some "Invalid amount. Must be a positive number." }
  else if amount < MIN_TRADE_AMOUNT then
    { valid := false, error := some "Amount too small." }
  else if amount > MAX_TRANSACTION_SIZE then
    { valid := false, error := some "Amount too large." }
  else
    { valid := true }

/-- Model of `validateSlippageTolerance` (validation.ts). -/
def validateSlippageTolerance (slippageTolerance : ℝ) : ValidationError :=
  if slippageTolerance < 0 then
    { valid := false, error := some "Invalid slippage tolerance. Must be nonnegative." }
  else if slippageTolerance < MIN_SLIPPAGE_TOLERANCE then
    { valid := false, error := some "Slippage tolerance too strict." }
  else if slippageTolerance > MAX_SLIPPAGE_TOLERANCE then
    { valid := false, error := some "Slippage tolerance too loose." }
  else
    { valid := true }

/-- Model of `validateWithdrawLiquidity` (validation.ts): positive share count, a
rough share-vs-ETH-reserve sanity check, and the minimum-pool-reserve
floors on both sides. -/
def validateWithdrawLiquidity
    (shares ethAmount usdcAmount currentEthReserve currentUsdcReserve : ℝ) :
    ValidationError :=
  if shares ≤ 0 then
    { valid := false, error := some "Invalid shares. Must be positive." }
  else if shares > currentEthReserve then
    { valid := false, error := some "Insufficient shares. Pool does not have enough." }
  else if currentEthReserve - ethAmount < MIN_POOL_RESERVE then
    { valid := false, error := some "Withdrawal would deplete pool ETH." }
  else if currentUsdcReserve - usdcAmount < MIN_POOL_RESERVE then
    { valid := false, error := some "Withdrawal would deplete pool USDC." }
  else
    { valid := true }

/-! ## Pool Engine (`pool.ts`) -/

/-- The errors the pool engine can throw. -/
inductive PoolError
  | poolBroken
  | invariantViolation
  | depleted
deriving DecidableEq

/-- Model of `executeSwap` (pool.ts).  The source mutates the pool record first
(add input, subtract output, accumulate fee) and only then checks the
postconditions, throwing with the state already updated; on success it
raises `k` to the new product when larger.  Modelled as returning the
updated state together with an optional error. -/
def executeSwap (inputTokenType outputTokenType : Token)
    (amountIn amountOut feeAmount : ℝ) (p : PoolState) :
    PoolState × Option PoolError :=
  let p1 := match inputTokenType with
    | Token.ETH => { p with ethReserve := p.ethReserve + amountIn }
    | Token.USDC => { p with usdcReserve := p.usdcReserve + amountIn }
  let p2 := match outputTokenType with
    | Token.ETH => { p1 with ethReserve := p1.ethReserve - amountOut }
    | Token.USDC => { p1 with usdcReserve := p1.usdcReserve - amountOut }
  let p3 := match inputTokenType with
    | Token.ETH => { p2 with accumulatedFeeEth := p2.accumulatedFeeEth + feeAmount }
    | Token.USDC => { p2 with accumulatedFeeUsdc := p2.accumulatedFeeUsdc + feeAmount }
  if p3.ethReserve ≤ 0 ∨ p3.usdcReserve ≤ 0 then
    (p3, some PoolError.poolBroken)
  else
    let newK := p3.ethReserve * p3.usdcReserve
    let epsilon := max (1 / 1000) (5 / 10 ^ 15 * p3.k)
    if newK + epsilon < p3.k then
      (p3, some PoolError.invariantViolation)
    else
      (if newK > p3.k then { p3 with k := newK } else p3, none)

/-- Model of `addLiquidity` (pool.ts): grow both reserves and the share supply,
then recompute `k` exactly. -/
def addLiquidity (ethAmount usdcAmount sharesIssued : ℝ) (p : PoolState) :
    PoolState :=
  let p1 := { p with
    ethReserve := p.ethReserve + ethAmount
    usdcReserve := p.usdcReserve + usdcAmount
    totalShares := p.totalShares + sharesIssued }
  { p1 with k := p1.ethReserve * p1.usdcReserve }

/-- Model of `withdrawLiquidity` (pool.ts).  The source subtracts both reserves
and the burned shares first, then checks the reserves and throws with the
state already updated; on success it recomputes `k` exactly. -/
def withdrawLiquidity (ethAmount usdcAmount sharesBurned : ℝ)
    (p : PoolState) : PoolState × Option PoolError :=
  let p1 := { p with
    ethReserve := p.ethReserve - ethAmount
    usdcReserve := p.usdcReserve - usdcAmount
    totalShares := p.totalShares - sharesBurned }
  if p1.ethReserve ≤ 0 ∨ p1.usdcReserve ≤ 0 then
    (p1, some PoolError.depleted)
  else
    ({ p1 with k := p1.ethReserve * p1.usdcReserve }, none)

/-- Model of `validateShareAmount` (pool.ts): positive and at most the
total share supply of the pool. -/
def validateShareAmount (shares : ℝ) (p : PoolState) : Bool :=
  decide (shares > 0 ∧ shares ≤ p.totalShares)

/-! ## Request handlers (`index.ts`) -/

def SWAP_FEE_PERCENTAGE : ℝ := 3 / 1000
def DEFAULT_SLIPPAGE_TOLERANCE : ℝ := 5 / 1000

/-- Outcome of a `POST /buy` or `POST /sell` request. -/
inductive SwapOutcome
  | badAmount
  | badSlippage
  | mathError
  | slippageExceeded
  | engineFailed
  | ok
deriving DecidableEq

/-- The common body of the `POST /buy` and `POST /sell` handlers
(`index.ts`): validate amount and slippage tolerance, split the fee,
compute the expected output from the input/output reserves, compute the
spot price and price impact, compare the expected output against
`max(minimumOutput, userMinimum)`, and finally call `executeSwap` with
the *after-fee* amount, the expected output and the fee.  `/buy` is this
with `inputTokenType = ETH`, `/sell` with `inputTokenType = USDC`.  A
missing user minimum (`minOutput || 0`) is passed as `0`. -/
def swapHandler (inputTokenType outputTokenType : Token)
    (amount minOutput slippageTolerance : ℝ) (p : PoolState) :
    PoolState × SwapOutcome :=
  if (validateSwapAmount amount).valid = false then
    (p, SwapOutcome.badAmount)
  else if (validateSlippageTolerance slippageTolerance).valid = false then
    (p, SwapOutcome.badSlippage)
  else
    let fee := (calculateFee amount SWAP_FEE_PERCENTAGE).1
    let amountAfterFee := (calculateFee amount SWAP_FEE_PERCENTAGE).2
    match calculateOutputAmount amountAfterFee
        (reserveOf p inputTokenType) (reserveOf p outputTokenType) with
    | Except.error _ => (p, SwapOutcome.mathError)
    | Except.ok expectedOutput =>
      match calculateSpotPrice (reserveOf p outputTokenType)
          (reserveOf p inputTokenType) with
      | Except.error _ => (p, SwapOutcome.mathError)
      | Except.ok spotPrice =>
        let _priceImpact := calculatePriceImpact expectedOutput amountAfterFee spotPrice
        let minimumOutput := calculateMinimumOutput expectedOutput slippageTolerance
        let finalMinimumOutput := max minimumOutput minOutput
        if isSlippageAcceptable expectedOutput finalMinimumOutput = false then
          (p, SwapOutcome.slippageExceeded)
        else
          match executeSwap inputTokenType outputTokenType
              amountAfterFee expectedOutput fee p with
          | (p2, some _) => (p2, SwapOutcome.engineFailed)
          | (p2, none) => (p2, SwapOutcome.ok)

/-- Outcome of a `POST /remove-liquidity` request. -/
inductive RemoveOutcome
  | badShares
  | badWithdraw
  | engineFailed
  | ok
deriving DecidableEq

/-- The `POST /remove-liquidity` handler (`index.ts`): reject unless
`validateShareAmount` holds, compute the proportional withdrawal
amounts, run `validateWithdrawLiquidity`, and only then call the engine
function `withdrawLiquidity`. -/
def removeLiquidityHandler (sharesToBurn : ℝ) (p : PoolState) :
    PoolState × RemoveOutcome :=
  if validateShareAmount sharesToBurn p = false then
    (p, RemoveOutcome.badShares)
  else
    let w := calculateWithdrawalAmounts sharesToBurn
      p.ethReserve p.usdcReserve p.totalShares
    if (validateWithdrawLiquidity sharesToBurn w.1 w.2
        p.ethReserve p.usdcReserve).valid = false then
      (p, RemoveOutcome.badWithdraw)
    else
      match withdrawLiquidity w.1 w.2 sharesToBurn p with
      | (p2, some _) => (p2, RemoveOutcome.engineFailed)
      | (p2, none) => (p2, RemoveOutcome.ok)

/-! ## Swap sequences -/

/-- One `executeSwap` call description. -/
structure SwapCall where
  inputTokenType : Token
  outputTokenType : Token
  amountIn : ℝ
  amountOut : ℝ
  feeAmount : ℝ

/-- Run one `SwapCall` against a pool state. -/
def execStep (c : SwapCall) (p : PoolState) : PoolState × Option PoolError :=
  executeSwap c.inputTokenType c.outputTokenType c.amountIn c.amountOut c.feeAmount p

/-- Run a list of swap executions, stopping with `none` as soon as one of
them throws; `some q` means every swap in the list succeeded and left the
pool in state `q`. -/
def runSwapsOk (p : PoolState) : List SwapCall → Option PoolState
  | [] => some p
  | c :: cs =>
    match execStep c p with
    | (_, some _) => none
    | (q, none) => runSwapsOk q cs

/-! ## JavaScript numbers (for the domain-guard behaviour of the AMM
math on non-finite inputs)

`utils.ts` guards its inputs with plain `<= 0` / `=== 0` comparisons on
IEEE-754 doubles.  To settle claims about NaN / Infinity inputs we model
a JavaScript number as either a real number or one of the special values
`NaN`, `+Infinity`, `-Infinity`, with the JavaScript comparison and
arithmetic semantics on the special values. -/

/-- A JavaScript number: a (finite) real, `NaN`, `Infinity` or
`-Infinity`. -/
inductive JSNum
  | num : ℝ → JSNum
  | nan : JSNum
  | posInf : JSNum
  | negInf : JSNum

/-- JavaScript `x <= y`: any comparison with `NaN` is `false`;
`-Infinity` is below everything else and `Infinity` above. -/
def jsLe : JSNum → JSNum → Bool
  | JSNum.nan, _ => false
  | _, JSNum.nan => false
  | JSNum.negInf, _ => true
  | _, JSNum.negInf => false
  | _, JSNum.posInf => true
  | JSNum.posInf, _ => false
  | JSNum.num x, JSNum.num y => decide (x ≤ y)

/-- JavaScript addition on the special values (finite overflow is not
modelled). -/
def jsAdd : JSNum → JSNum → JSNum
  | JSNum.nan, _ => JSNum.nan
  | _, JSNum.nan => JSNum.nan
  | JSNum.posInf, JSNum.negInf => JSNum.nan
  | JSNum.negInf, JSNum.posInf => JSNum.nan
  | JSNum.posInf, _ => JSNum.posInf
  | _, JSNum.posInf => JSNum.posInf
  | JSNum.negInf, _ => JSNum.negInf
  | _, JSNum.negInf => JSNum.negInf
  | JSNum.num x, JSNum.num y => JSNum.num (x + y)

/-- JavaScript multiplication on the special values. -/
def jsMul : JSNum → JSNum → JSNum
  | JSNum.nan, _ => JSNum.nan
  | _, JSNum.nan => JSNum.nan
  | JSNum.posInf, JSNum.posInf => JSNum.posInf
  | JSNum.posInf, JSNum.negInf => JSNum.negInf
  | JSNum.negInf, JSNum.posInf => JSNum.negInf
  | JSNum.negInf, JSNum.negInf => JSNum.posInf
  | JSNum.posInf, JSNum.num x =>
    if x = 0 then JSNum.nan else if 0 < x then JSNum.posInf else JSNum.negInf
  | JSNum.num x, JSNum.posInf =>
    if x = 0 then JSNum.nan else if 0 < x then JSNum.posInf else JSNum.negInf
  | JSNum.negInf, JSNum.num x =>
    if x = 0 then JSNum.nan else if 0 < x then JSNum.negInf else JSNum.posInf
  | JSNum.num x, JSNum.negInf =>
    if x = 0 then JSNum.nan else if 0 < x then JSNum.negInf else JSNum.posInf
  | JSNum.num x, JSNum.num y => JSNum.num (x * y)

/-- JavaScript division on the special values (signed zero is not
modelled; division of a nonzero finite number by zero gives a signed
infinity). -/
def jsDiv : JSNum → JSNum → JSNum
  | JSNum.nan, _ => JSNum.nan
  | _, JSNum.nan => JSNum.nan
  | JSNum.posInf, JSNum.posInf => JSNum.nan
  | JSNum.posInf, JSNum.negInf => JSNum.nan
  | JSNum.negInf, JSNum.posInf => JSNum.nan
  | JSNum.negInf, JSNum.negInf => JSNum.nan
  | JSNum.posInf, JSNum.num y =>
    if 0 ≤ y then JSNum.posInf else JSNum.negInf
  | JSNum.negInf, JSNum.num y =>
    if 0 ≤ y then JSNum.negInf else JSNum.posInf
  | JSNum.num _, JSNum.posInf => JSNum.num 0
  | JSNum.num _, JSNum.negInf => JSNum.num 0
  | JSNum.num x, JSNum.num y =>
    if y = 0 then
      (if x = 0 then JSNum.nan else if 0 < x then JSNum.posInf else JSNum.negInf)
    else JSNum.num (x / y)

/-- Model of `calculateOutputAmount` (utils.ts) over JavaScript-number inputs:
the guard is the literal `inputAmount <= 0 || inputReserve <= 0 ||
outputReserve <= 0` comparison chain, the result the literal
`inputAmount * outputReserve / (inputReserve + inputAmount)`. -/
def calculateOutputAmountJS (inputAmount inputReserve outputReserve : JSNum) :
    Except String JSNum :=
  if jsLe inputAmount (JSNum.num 0) || jsLe inputReserve (JSNum.num 0) ||
      jsLe outputReserve (JSNum.num 0) then
    Except.error "All amounts must be positive"
  else
    Except.ok (jsDiv (jsMul inputAmount outputReserve) (jsAdd inputReserve inputAmount))

/-- Whether an AMM-math call raised a (domain) error. -/
def isDomainError {α : Type} : Except String α → Bool
  | Except.error _ => true
  | Except.ok _ => false

/-- The pool state produced by
`executeSwap ETH USDC 10 (997/100) (3/100) seedPool`. -/
def swapWitnessPool : PoolState :=
  { ethReserve := 1000010
    usdcReserve := 99999003 / 100
    totalShares := 1000000
    accumulatedFeeEth := 3 / 100
    accumulatedFeeUsdc := 0
    k := 1000010 * (99999003 / 100) }

/-- The pool state produced by a `POST /buy` of `10` ETH against the
seeded pool: the ETH reserve grows by the after-fee amount `997/100`,
the USDC reserve shrinks by the expected output, the fee `3/100` lands
in the accumulated-fee counter only, and the product of reserves (and
hence `k`) is unchanged. -/
def buyWitnessPool : PoolState :=
  { ethReserve := 100000997 / 100
    usdcReserve := 100000000000000 / 100000997
    totalShares := 1000000
    accumulatedFeeEth := 3 / 100
    accumulatedFeeUsdc := 0
    k := 1000000 * 1000000 }

/-! ## Shared helper lemmas -/

/-- A validated swap amount lies between the dust floor and the
transaction ceiling. -/
theorem validateSwapAmount_bounds (amount : ℝ)
    (h : (validateSwapAmount amount).valid = true) :
    MIN_TRADE_AMOUNT ≤ amount ∧ amount ≤ MAX_TRANSACTION_SIZE := by
  unfold validateSwapAmount at h
  split_ifs at h with h1 h2 h3
  exact ⟨le_of_not_lt h2, le_of_not_lt h3⟩

/-- A validated slippage tolerance lies between the minimum and maximum
tolerances. -/
theorem validateSlippageTolerance_bounds (slippageTolerance : ℝ)
    (h : (validateSlippageTolerance slippageTolerance).valid = true) :
    MIN_SLIPPAGE_TOLERANCE ≤ slippageTolerance ∧
      slippageTolerance ≤ MAX_SLIPPAGE_TOLERANCE := by
  unfold validateSlippageTolerance at h
  split_ifs at h with h1 h2 h3
  exact ⟨le_of_not_lt h2, le_of_not_lt h3⟩

end Arbordex

end

namespace Arbordex

/-! ## Claim theorems -/

/-- C5: for all `amountIn > 0`, `reserveIn > 0`, `reserveOut > 0`,
`calculateOutputAmount` returns `amountIn * reserveOut / (reserveIn +
amountIn)`; the result satisfies `0 < amountOut < reserveOut`, and for
fixed reserves it is strictly increasing in `amountIn`. -/
theorem calculateOutputAmount_spec (amountIn reserveIn reserveOut : ℝ)
    (hIn : 0 < amountIn) (hRin : 0 < reserveIn) (hRout : 0 < reserveOut) :
    calculateOutputAmount amountIn reserveIn reserveOut =
      Except.ok (amountIn * reserveOut / (reserveIn + amountIn)) ∧
    0 < amountIn * reserveOut / (reserveIn + amountIn) ∧
    amountIn * reserveOut / (reserveIn + amountIn) < reserveOut ∧
    ∀ amountIn2, amountIn < amountIn2 →
      amountIn * reserveOut / (reserveIn + amountIn) <
        amountIn2 * reserveOut / (reserveIn + amountIn2) := by
  have hsum : 0 < reserveIn + amountIn := by linarith
  refine ⟨?_, ?_, ?_, ?_⟩
  · unfold calculateOutputAmount
    rw [if_neg]
    push_neg
    exact ⟨hIn, hRin, hRout⟩
  · exact div_pos (mul_pos hIn hRout) hsum
  · rw [div_lt_iff₀ hsum]
    nlinarith
  · intro amountIn2 h2
    have hsum2 : 0 < reserveIn + amountIn2 := by linarith
    rw [div_lt_div_iff₀ hsum hsum2]
    nlinarith [mul_pos (mul_pos hRout hRin) (sub_pos.mpr h2)]

/-- Witness for C5 at `(10, 1000, 1000)`. -/
theorem calculateOutputAmount_spec_witness :
    calculateOutputAmount 10 1000 1000 =
      Except.ok (10 * 1000 / (1000 + 10)) ∧
    (10 : ℝ) * 1000 / (1000 + 10) < 1000 ∧
    (10 : ℝ) * 1000 / (1000 + 10) < 20 * 1000 / (1000 + 20) := by
  obtain ⟨h1, _h2, h3, h4⟩ :=
    calculateOutputAmount_spec 10 1000 1000 (by norm_num) (by norm_num) (by norm_num)
  exact ⟨h1, h3, h4 20 (by norm_num)⟩

/-- C6: a genesis deposit (`totalShares = 0`) yields
`max (sqrt (amountA * amountB)) 1000` shares; in particular when
`sqrt (amountA * amountB) < 1000` it yields exactly `1000`. -/
theorem calculateLiquidityShares_genesis (a b rA rB S : ℝ) (hS : S = 0) :
    calculateLiquidityShares a b rA rB S = max (Real.sqrt (a * b)) 1000 ∧
    (Real.sqrt (a * b) < 1000 → calculateLiquidityShares a b rA rB S = 1000) := by
  subst hS
  constructor
  · unfold calculateLiquidityShares
    rw [if_pos rfl]
  · intro h
    unfold calculateLiquidityShares
    rw [if_pos rfl, max_eq_right (le_of_lt h)]

/-- Witness for C6: depositing `(4, 4)` into a zero-share pool yields
exactly `1000` shares. -/
theorem calculateLiquidityShares_genesis_witness :
    (0 : ℝ) = 0 ∧ calculateLiquidityShares 4 4 0 0 0 = 1000 := by
  refine ⟨rfl, (calculateLiquidityShares_genesis 4 4 0 0 0 rfl).2 ?_⟩
  have h16 : Real.sqrt ((4 : ℝ) * 4) = 4 := by
    rw [show ((4 : ℝ) * 4) = 4 ^ 2 by norm_num]
    exact Real.sqrt_sq (by norm_num)
  rw [h16]
  norm_num

/-- C7: a perfectly proportional deposit `(a, b)` into a pool
`(rA, rB, S)` with `S > 0` is credited `S * a / rA` shares, and
withdrawing exactly those shares from the post-deposit pool returns
exactly `(a, b)`. -/
theorem deposit_withdraw_roundtrip (a b rA rB S : ℝ)
    (ha : 0 < a) (hb : 0 < b) (hrA : 0 < rA) (hrB : 0 < rB) (hS : 0 < S)
    (hprop : a / rA = b / rB) :
    calculateLiquidityShares a b rA rB S = S * a / rA ∧
    calculateWithdrawalAmounts (calculateLiquidityShares a b rA rB S)
      (rA + a) (rB + b) (S + calculateLiquidityShares a b rA rB S) = (a, b) := by
  have hrA0 : rA ≠ 0 := ne_of_gt hrA
  have hrB0 : rB ≠ 0 := ne_of_gt hrB
  have hS0 : S ≠ 0 := ne_of_gt hS
  have hab : a * rB = b * rA := by
    field_simp at hprop
    linarith
  have hshares : calculateLiquidityShares a b rA rB S = S * a / rA := by
    unfold calculateLiquidityShares
    rw [if_neg hS0]
    show min (a / rA) (b / rB) * S = S * a / rA
    rw [hprop, min_self, ← hprop]
    ring
  refine ⟨hshares, ?_⟩
  rw [hshares]
  unfold calculateWithdrawalAmounts
  have hfrac : 0 < S * a / rA := div_pos (mul_pos hS ha) hrA
  have hden : S + S * a / rA ≠ 0 := by positivity
  show ((rA + a) * (S * a / rA / (S + S * a / rA)),
        (rB + b) * (S * a / rA / (S + S * a / rA))) = (a, b)
  rw [Prod.mk.injEq]
  constructor
  · field_simp
    ring
  · field_simp
    linear_combination S * hab

/-- Witness for C7 at `(a, b) = (100, 200)`, `(rA, rB, S) = (1000, 2000,
1000)`. -/
theorem deposit_withdraw_roundtrip_witness :
    calculateLiquidityShares 100 200 1000 2000 1000 = 1000 * 100 / 1000 ∧
    calculateWithdrawalAmounts (calculateLiquidityShares 100 200 1000 2000 1000)
      (1000 + 100) (2000 + 200)
      (1000 + calculateLiquidityShares 100 200 1000 2000 1000) = (100, 200) :=
  deposit_withdraw_roundtrip 100 200 1000 2000 1000
    (by norm_num) (by norm_num) (by norm_num) (by norm_num) (by norm_num)
    (by norm_num)

/-- C8 (amended): the AMM-math guards are comparison-based;
`calculateOutputAmount` raises its domain error exactly when one of the
three inputs compares `<= 0` under JavaScript semantics (which a NaN or
`+Infinity` input never does), and `calculateSpotPrice` raises exactly
when the ETH reserve equals zero. -/
theorem ammMath_domain_guard :
    (∀ a rIn rOut : JSNum,
      isDomainError (calculateOutputAmountJS a rIn rOut) =
        (jsLe a (JSNum.num 0) || jsLe rIn (JSNum.num 0) ||
          jsLe rOut (JSNum.num 0))) ∧
    (∀ usdcReserve ethReserve : ℝ,
      isDomainError (calculateSpotPrice usdcReserve ethReserve) = true ↔
        ethReserve = 0) := by
  constructor
  · intro a rIn rOut
    cases hb : (jsLe a (JSNum.num 0) || jsLe rIn (JSNum.num 0) ||
        jsLe rOut (JSNum.num 0)) <;>
      simp [calculateOutputAmountJS, hb, isDomainError]
  · intro u e
    unfold calculateSpotPrice
    by_cases he : e = 0 <;> simp [he, isDomainError]

/-- C8 counterexample: `calculateOutputAmount` does *not* raise on a NaN
or `+Infinity` input amount — both pass the `<= 0` guard and the call
returns `NaN`. -/
theorem calculateOutputAmount_nonfinite_not_rejected :
    calculateOutputAmountJS JSNum.nan (JSNum.num 1000) (JSNum.num 1000) =
      Except.ok JSNum.nan ∧
    calculateOutputAmountJS JSNum.posInf (JSNum.num 1000) (JSNum.num 1000) =
      Except.ok JSNum.nan := by
  constructor <;>
    norm_num [calculateOutputAmountJS, jsLe, jsMul, jsAdd, jsDiv]

/-- C9: a remove-liquidity request burning more shares than
`totalShares` is rejected by `validateShareAmount` before any engine
mutation, leaving the pool unchanged. -/
theorem removeLiquidity_overburn_rejected (shares : ℝ) (p : PoolState)
    (h : shares > p.totalShares) :
    removeLiquidityHandler shares p = (p, RemoveOutcome.badShares) := by
  have hv : validateShareAmount shares p = false := by
    unfold validateShareAmount
    simp only [decide_eq_false_iff_not, not_and]
    intro _ h2
    linarith
  simp [removeLiquidityHandler, hv]

/-- Witness for C9: burning `2000000` shares against the seeded pool
(`totalShares = 1000000`) is rejected with the pool unchanged. -/
theorem removeLiquidity_overburn_rejected_witness :
    (2000000 : ℝ) > seedPool.totalShares ∧
    removeLiquidityHandler 2000000 seedPool = (seedPool, RemoveOutcome.badShares) :=
  ⟨by norm_num [seedPool],
   removeLiquidity_overburn_rejected 2000000 seedPool (by norm_num [seedPool])⟩

end Arbordex

namespace Arbordex

/-- C1: an error-free `executeSwap` adds `amountIn` to the input-side
reserve, subtracts `amountOut` from the output-side reserve, adds `fee`
to the accumulated-fee counter of the input side, and sets `k` to
`max (old k) (new reserveA * reserveB)`; a call whose updated reserves
are not both positive throws the pool-broken error, and a call with
positive updated reserves whose new product lies below
`old k - max (1e-3) (5e-15 * old k)` throws the invariant-violation
error. -/
theorem executeSwap_effects (inT outT : Token) (hne : inT ≠ outT)
    (amountIn amountOut feeAmount : ℝ) (p q : PoolState) (e : Option PoolError)
    (hq : executeSwap inT outT amountIn amountOut feeAmount p = (q, e)) :
    (e = none →
      reserveOf q inT = reserveOf p inT + amountIn ∧
      reserveOf q outT = reserveOf p outT - amountOut ∧
      feeOf q inT = feeOf p inT + feeAmount ∧
      q.k = max p.k (q.ethReserve * q.usdcReserve)) ∧
    (q.ethReserve ≤ 0 ∨ q.usdcReserve ≤ 0 → e = some PoolError.poolBroken) ∧
    (0 < q.ethReserve → 0 < q.usdcReserve →
      q.ethReserve * q.usdcReserve <
        p.k - max (1 / 1000) (5 / 10 ^ 15 * p.k) →
      e = some PoolError.invariantViolation) := by
  cases inT <;> cases outT
  case ETH.ETH => exact absurd rfl hne
  case USDC.USDC => exact absurd rfl hne
  case ETH.USDC =>
    unfold executeSwap at hq
    dsimp only at hq
    split_ifs at hq with h1 h2 h3
    · injection hq with hq1 hq2
      subst hq1; subst hq2
      refine ⟨fun h => by simp at h, fun _ => rfl, fun he hu _ => ?_⟩
      exact absurd h1 (by push_neg; exact ⟨he, hu⟩)
    · injection hq with hq1 hq2
      subst hq1; subst hq2
      exact ⟨fun h => by simp at h, fun hle => absurd hle h1, fun _ _ _ => rfl⟩
    · injection hq with hq1 hq2
      subst hq1; subst hq2
      refine ⟨fun _ => ⟨rfl, rfl, rfl, ?_⟩, fun hle => absurd hle h1,
        fun _ _ hlt => absurd (by linarith) h2⟩
      exact (max_eq_right (le_of_lt h3)).symm
    · injection hq with hq1 hq2
      subst hq1; subst hq2
      refine ⟨fun _ => ⟨rfl, rfl, rfl, ?_⟩, fun hle => absurd hle h1,
        fun _ _ hlt => absurd (by linarith) h2⟩
      exact (max_eq_left (le_of_not_lt h3)).symm
  case USDC.ETH =>
    unfold executeSwap at hq
    dsimp only at hq
    split_ifs at hq with h1 h2 h3
    · injection hq with hq1 hq2
      subst hq1; subst hq2
      refine ⟨fun h => by simp at h, fun _ => rfl, fun he hu _ => ?_⟩
      exact absurd h1 (by push_neg; exact ⟨he, hu⟩)
    · injection hq with hq1 hq2
      subst hq1; subst hq2
      exact ⟨fun h => by simp at h, fun hle => absurd hle h1, fun _ _ _ => rfl⟩
    · injection hq with hq1 hq2
      subst hq1; subst hq2
      refine ⟨fun _ => ⟨rfl, rfl, rfl, ?_⟩, fun hle => absurd hle h1,
        fun _ _ hlt => absurd (by linarith) h2⟩
      exact (max_eq_right (le_of_lt h3)).symm
    · injection hq with hq1 hq2
      subst hq1; subst hq2
      refine ⟨fun _ => ⟨rfl, rfl, rfl, ?_⟩, fun hle => absurd hle h1,
        fun _ _ hlt => absurd (by linarith) h2⟩
      exact (max_eq_left (le_of_not_lt h3)).symm

/-- Witness for C1: a concrete successful swap of `10` ETH-side units
(output `997/100`, fee `3/100`) against the seeded pool. -/
theorem executeSwap_effects_witness :
    Token.ETH ≠ Token.USDC ∧
    executeSwap Token.ETH Token.USDC 10 (997 / 100) (3 / 100) seedPool =
      (swapWitnessPool, none) ∧
    ((none : Option PoolError) = none →
      reserveOf swapWitnessPool Token.ETH = reserveOf seedPool Token.ETH + 10 ∧
      reserveOf swapWitnessPool Token.USDC =
        reserveOf seedPool Token.USDC - 997 / 100 ∧
      feeOf swapWitnessPool Token.ETH = feeOf seedPool Token.ETH + 3 / 100 ∧
      swapWitnessPool.k =
        max seedPool.k (swapWitnessPool.ethReserve * swapWitnessPool.usdcReserve)) ∧
    (swapWitnessPool.ethReserve ≤ 0 ∨ swapWitnessPool.usdcReserve ≤ 0 →
      (none : Option PoolError) = some PoolError.poolBroken) ∧
    (0 < swapWitnessPool.ethReserve → 0 < swapWitnessPool.usdcReserve →
      swapWitnessPool.ethReserve * swapWitnessPool.usdcReserve <
        seedPool.k - max (1 / 1000) (5 / 10 ^ 15 * seedPool.k) →
      (none : Option PoolError) = some PoolError.invariantViolation) := by
  have hq : executeSwap Token.ETH Token.USDC 10 (997 / 100) (3 / 100) seedPool =
      (swapWitnessPool, none) := by
    unfold executeSwap seedPool swapWitnessPool
    norm_num
  have h := executeSwap_effects Token.ETH Token.USDC (by decide) 10 (997 / 100)
    (3 / 100) seedPool swapWitnessPool none hq
  exact ⟨by decide, hq, h.1, h.2.1, h.2.2⟩

/-- C2 (code bug): `withdrawLiquidity` applies the reserve and share
deltas *before* the depletion check, so a failing call throws with the
mutation already applied: withdrawing `(1000000, 500, 1000)` from the
seeded pool throws the depletion error yet leaves the pool with
`ethReserve = 0`, `usdcReserve = 999500`, `totalShares = 999000` instead
of the untouched seed state. -/
theorem withdrawLiquidity_mutates_before_throw :
    (withdrawLiquidity 1000000 500 1000 seedPool).2 = some PoolError.depleted ∧
    (withdrawLiquidity 1000000 500 1000 seedPool).1.ethReserve = 0 ∧
    (withdrawLiquidity 1000000 500 1000 seedPool).1.usdcReserve = 999500 ∧
    (withdrawLiquidity 1000000 500 1000 seedPool).1.totalShares = 999000 := by
  norm_num [withdrawLiquidity, seedPool]

end Arbordex

namespace Arbordex

/-- C3 (amended): along any sequence of successful swap executions from
the seeded pool, with no liquidity events, the product of reserves after
each successful swap is at least the `k` recorded before that swap minus
the engine tolerance `max (1e-3) (5e-15 * k)`. -/
theorem swapSeq_product_ge_k_minus_eps (calls : List SwapCall) (p : PoolState)
    (hreach : runSwapsOk seedPool calls = some p) (c : SwapCall)
    (hsucc : (execStep c p).2 = none) :
    p.k - max (1 / 1000) (5 / 10 ^ 15 * p.k) ≤
      (execStep c p).1.ethReserve * (execStep c p).1.usdcReserve := by
  clear hreach
  rcases c with ⟨inT, outT, aIn, aOut, f⟩
  cases inT <;> cases outT <;>
    · unfold execStep executeSwap at hsucc ⊢
      dsimp only at hsucc ⊢
      split_ifs at hsucc ⊢ with h1 h2 h3 <;> simp_all

/-- Witness for the amended C3 theorem: the empty sequence reaches the
seeded pool, and the concrete swap `(ETH → USDC, 10, 997/100, 3/100)`
succeeds from there. -/
theorem swapSeq_product_ge_k_minus_eps_witness :
    runSwapsOk seedPool [] = some seedPool ∧
    (execStep ⟨Token.ETH, Token.USDC, 10, 997 / 100, 3 / 100⟩ seedPool).2 = none ∧
    seedPool.k - max (1 / 1000) (5 / 10 ^ 15 * seedPool.k) ≤
      (execStep ⟨Token.ETH, Token.USDC, 10, 997 / 100, 3 / 100⟩ seedPool).1.ethReserve *
        (execStep ⟨Token.ETH, Token.USDC, 10, 997 / 100, 3 / 100⟩ seedPool).1.usdcReserve := by
  have hs : (execStep ⟨Token.ETH, Token.USDC, 10, 997 / 100, 3 / 100⟩ seedPool).2 = none := by
    norm_num [execStep, executeSwap, seedPool]
  exact ⟨rfl, hs,
    swapSeq_product_ge_k_minus_eps [] seedPool rfl
      ⟨Token.ETH, Token.USDC, 10, 997 / 100, 3 / 100⟩ hs⟩

/-- C3 counterexample: a swap execution can succeed while the new
product of reserves is strictly *below* the `k` recorded before the
swap (the engine only enforces `>= k - ε`): swapping
`(ETH → USDC, 1, (10^9+1)/(10^9+1000), 3/1000)` against the seeded pool
succeeds, yet the resulting product is `10^12 - 1/1000 < k = 10^12`. -/
theorem swap_product_can_drop_below_k :
    (executeSwap Token.ETH Token.USDC 1 ((10 ^ 9 + 1) / (10 ^ 9 + 1000))
      (3 / 1000) seedPool).2 = none ∧
    (executeSwap Token.ETH Token.USDC 1 ((10 ^ 9 + 1) / (10 ^ 9 + 1000))
        (3 / 1000) seedPool).1.ethReserve *
      (executeSwap Token.ETH Token.USDC 1 ((10 ^ 9 + 1) / (10 ^ 9 + 1000))
        (3 / 1000) seedPool).1.usdcReserve < seedPool.k := by
  norm_num [executeSwap, seedPool]

end Arbordex

namespace Arbordex

/-- C4 (code bug): a successful `POST /buy` of `10` ETH against the
seeded pool increases the ETH reserve by only the after-fee amount
`997/100`, not by the full input `10`; the fee `3/100` is recorded
solely in the informational accumulated-fee counter and never enters the
reserves (the product of reserves, and hence `k`, is unchanged). -/
theorem buy_fee_not_added_to_reserves :
    swapHandler Token.ETH Token.USDC 10 0 DEFAULT_SLIPPAGE_TOLERANCE seedPool =
      (buyWitnessPool, SwapOutcome.ok) ∧
    buyWitnessPool.ethReserve = seedPool.ethReserve + 997 / 100 ∧
    buyWitnessPool.accumulatedFeeEth = 3 / 100 ∧
    buyWitnessPool.k = seedPool.k ∧
    buyWitnessPool.ethReserve ≠ seedPool.ethReserve + 10 := by
  have hA : (validateSwapAmount 10).valid = true := by
    norm_num [validateSwapAmount, MIN_TRADE_AMOUNT, MAX_TRANSACTION_SIZE]
  have hT : (validateSlippageTolerance DEFAULT_SLIPPAGE_TOLERANCE).valid = true := by
    norm_num [validateSlippageTolerance, DEFAULT_SLIPPAGE_TOLERANCE,
      MIN_SLIPPAGE_TOLERANCE, MAX_SLIPPAGE_TOLERANCE]
  have hfee : calculateFee 10 SWAP_FEE_PERCENTAGE = (3 / 100, 997 / 100) := by
    norm_num [calculateFee, SWAP_FEE_PERCENTAGE]
  have hout : calculateOutputAmount (calculateFee 10 SWAP_FEE_PERCENTAGE).2
      (reserveOf seedPool Token.ETH) (reserveOf seedPool Token.USDC) =
      Except.ok (997000000 / 100000997) := by
    rw [hfee]
    norm_num [calculateOutputAmount, reserveOf, seedPool]
  have hspot : calculateSpotPrice (reserveOf seedPool Token.USDC)
      (reserveOf seedPool Token.ETH) = Except.ok 1 := by
    norm_num [calculateSpotPrice, reserveOf, seedPool]
  have hslip : isSlippageAcceptable (997000000 / 100000997)
      (max (calculateMinimumOutput (997000000 / 100000997)
        DEFAULT_SLIPPAGE_TOLERANCE) 0) = true := by
    unfold isSlippageAcceptable
    rw [decide_eq_true_eq,
      max_eq_left (by norm_num [calculateMinimumOutput, DEFAULT_SLIPPAGE_TOLERANCE])]
    norm_num [calculateMinimumOutput, DEFAULT_SLIPPAGE_TOLERANCE]
  have hexec : executeSwap Token.ETH Token.USDC
      (calculateFee 10 SWAP_FEE_PERCENTAGE).2 (997000000 / 100000997)
      (calculateFee 10 SWAP_FEE_PERCENTAGE).1 seedPool = (buyWitnessPool, none) := by
    rw [hfee]
    norm_num [executeSwap, seedPool, buyWitnessPool]
  refine ⟨?_, by norm_num [buyWitnessPool, seedPool], by norm_num [buyWitnessPool],
    by norm_num [buyWitnessPool, seedPool], by norm_num [buyWitnessPool, seedPool]⟩
  unfold swapHandler
  simp [hA, hT, hout, hspot, hslip, hexec]

/-- C10: in the buy/sell handler, when the caller supplies no explicit
minimum output (modelled as `0`) or one not exceeding the computed
minimum, the slippage-exceeded branch is unreachable: the check compares
the expected output against `expectedOutput * (1 - tolerance)` from the
same reserve snapshot, which always passes for any tolerance that
survives validation. -/
theorem swap_slippage_branch_unreachable (inT outT : Token)
    (amount minOutput tol : ℝ) (p : PoolState)
    (hA : (validateSwapAmount amount).valid = true)
    (hT : (validateSlippageTolerance tol).valid = true)
    (hRin : 0 < reserveOf p inT) (hRout : 0 < reserveOf p outT)
    (hmin : minOutput ≤ calculateMinimumOutput
      ((calculateFee amount SWAP_FEE_PERCENTAGE).2 * reserveOf p outT /
        (reserveOf p inT + (calculateFee amount SWAP_FEE_PERCENTAGE).2)) tol) :
    (swapHandler inT outT amount minOutput tol p).2 ≠
      SwapOutcome.slippageExceeded := by
  obtain ⟨hamin, hamax⟩ := validateSwapAmount_bounds amount hA
  obtain ⟨htmin, htmax⟩ := validateSlippageTolerance_bounds tol hT
  set aaf := (calculateFee amount SWAP_FEE_PERCENTAGE).2 with haaf
  have haafpos : 0 < aaf := by
    rw [haaf]
    show 0 < amount - amount * SWAP_FEE_PERCENTAGE
    unfold SWAP_FEE_PERCENTAGE
    unfold MIN_TRADE_AMOUNT at hamin
    linarith
  set E := aaf * reserveOf p outT / (reserveOf p inT + aaf) with hE
  have hEpos : 0 < E := by
    rw [hE]
    exact div_pos (mul_pos haafpos hRout) (by linarith)
  have hout : calculateOutputAmount aaf (reserveOf p inT) (reserveOf p outT) =
      Except.ok E := by
    rw [hE]
    unfold calculateOutputAmount
    rw [if_neg]
    push_neg
    exact ⟨haafpos, hRin, hRout⟩
  have hspot : calculateSpotPrice (reserveOf p outT) (reserveOf p inT) =
      Except.ok (reserveOf p outT / reserveOf p inT) := by
    unfold calculateSpotPrice
    rw [if_neg (ne_of_gt hRin)]
  have hminle : calculateMinimumOutput E tol ≤ E := by
    unfold calculateMinimumOutput
    have h0 : 0 ≤ E * tol := by
      unfold MIN_SLIPPAGE_TOLERANCE at htmin
      exact mul_nonneg hEpos.le (by linarith)
    nlinarith
  have hslip : isSlippageAcceptable E
      (max (calculateMinimumOutput E tol) minOutput) = true := by
    unfold isSlippageAcceptable
    rw [decide_eq_true_eq]
    exact max_le hminle (hmin.trans hminle)
  unfold swapHandler
  simp only [hA, hT, hout, hspot, hslip]
  simp only [Bool.true_eq_false, if_false]
  rcases hE2 : executeSwap inT outT aaf E
      ((calculateFee amount SWAP_FEE_PERCENTAGE).1) p with ⟨p2, e⟩
  cases e <;> simp

/-- Witness for C10 at a `POST /buy` of `10` ETH with no explicit
minimum and tolerance `0.5%` against the seeded pool. -/
theorem swap_slippage_branch_unreachable_witness :
    (validateSwapAmount 10).valid = true ∧
    (swapHandler Token.ETH Token.USDC 10 0 (5 / 1000) seedPool).2 ≠
      SwapOutcome.slippageExceeded := by
  have hA : (validateSwapAmount 10).valid = true := by
    norm_num [validateSwapAmount, MIN_TRADE_AMOUNT, MAX_TRANSACTION_SIZE]
  refine ⟨hA, swap_slippage_branch_unreachable Token.ETH Token.USDC 10 0
    (5 / 1000) seedPool hA ?_ ?_ ?_ ?_⟩
  · norm_num [validateSlippageTolerance, MIN_SLIPPAGE_TOLERANCE,
      MAX_SLIPPAGE_TOLERANCE]
  · norm_num [reserveOf, seedPool]
  · norm_num [reserveOf, seedPool]
  · norm_num [calculateMinimumOutput, calculateFee, SWAP_FEE_PERCENTAGE,
      reserveOf, seedPool]

end Arbordex

namespace Arbordex

/-- Witness for the amended C8 theorem at concrete inputs: a negative
input amount is a guard hit, and a zero ETH reserve is a spot-price
domain error. -/
theorem ammMath_domain_guard_witness :
    isDomainError (calculateOutputAmountJS (JSNum.num (-1)) (JSNum.num 1000)
        (JSNum.num 1000)) =
      (jsLe (JSNum.num (-1)) (JSNum.num 0) || jsLe (JSNum.num 1000) (JSNum.num 0) ||
        jsLe (JSNum.num 1000) (JSNum.num 0)) ∧
    (isDomainError (calculateSpotPrice 5 0) = true ↔ (0 : ℝ) = 0) :=
  ⟨ammMath_domain_guard.1 (JSNum.num (-1)) (JSNum.num 1000) (JSNum.num 1000),
   ammMath_domain_guard.2 5 0⟩

end Arbordex
